import Mathlib

/-!
# breez-lnurl: the NWC webhook registry and the Nostr subscription manager

A shallow embedding of `persist/nwc/store.go`, `persist/nwc/memory.go`,
`persist/nwc/pg.go`, `nwc/manager.go` and `nwc/router.go`.

Conventions of the embedding:

* a Go `error` is an `Option Error`, `none` being `nil`;
* a Go pointer result that may be `nil` is an `Option`;
* a Go run-time panic is the outer `none` of an `Option` result, or the outcome
  `panicked` of a manager method;
* the answers of the store, of the libraries and of the network are arguments of
  the functions that use them;
* a Go slice is modelled by its visible contents (a `List`); where the code
  edits the backing array in place while a `range` loop is still walking the
  old slice header (`MemoryStore.Delete`), the backing array and the current
  length are modelled explicitly.
-/

namespace BreezLnurl

/-- A Go `error` value; `Option Error` is the Go type `error`, `none` is `nil`. -/
abbrev Error := String

/-! ## persist/nwc/store.go -/

/-- The struct `Webhook` of `store.go`. -/
structure Webhook where
  WalletServicePubkey : String
  AppPubkey : String
  Url : String
  Relays : List String
deriving DecidableEq, Repr

/-- The method `Webhook.Compare` of `store.go`:
`w.AppPubkey == appPubkey && w.WalletServicePubkey == walletServicePubkey`. -/
def Webhook.Compare (w : Webhook) (walletServicePubkey appPubkey : String) : Bool :=
  w.AppPubkey == appPubkey && w.WalletServicePubkey == walletServicePubkey

/-! ## persist/nwc/memory.go -/

/-- The struct `MemoryStore`. The map `forwardedEvents` only ever receives the
value `true`, so it is modelled by the list of its keys. -/
structure MemoryStore where
  webhooks : List Webhook
  forwardedEvents : List String
deriving DecidableEq, Repr

/-- The constructor `NewMemoryStore`. -/
def NewMemoryStore : MemoryStore :=
  { webhooks := [], forwardedEvents := [] }

/-- The loop of `MemoryStore.Set` over the slice: the first entry for which
`hook.Compare(webhook.WalletServicePubkey, webhook.AppPubkey)` holds is
overwritten and the function returns; when the loop ends without a match the
webhook is appended. -/
def setWebhooks (webhook : Webhook) : List Webhook → List Webhook
  | [] => [webhook]
  | hook :: rest =>
    if hook.Compare webhook.WalletServicePubkey webhook.AppPubkey then
      webhook :: rest
    else
      hook :: setWebhooks webhook rest

/-- The method `MemoryStore.Set`: the new store and the returned error (always `nil`). -/
def MemoryStore.Set (m : MemoryStore) (webhook : Webhook) : MemoryStore × Option Error :=
  ({ m with webhooks := setWebhooks webhook m.webhooks }, none)

/-- The method `MemoryStore.Get`: the first entry the key compares equal to, with a
`nil` error; when the loop ends without a match, `nil` and the error
`fmt.Errorf("Webhook not found")`. -/
def MemoryStore.Get (m : MemoryStore) (walletServicePubkey appPubkey : String) :
    Option Webhook × Option Error :=
  match m.webhooks.find? (fun hook => hook.Compare walletServicePubkey appPubkey) with
  | some hook => (some hook, none)
  | none => (none, some "Webhook not found")

/-- The loop of `MemoryStore.Delete`.

`for i, hook := range m.webhooks` evaluates the slice header once, so the loop
makes `n` iterations, `n` being the length at entry, and reads `hook` from the
backing array at iteration time. `arr` holds the first `n` cells of the backing
array, `len` is the current `len(m.webhooks)`, `i` the loop index and the first
argument the number of iterations left.

On a match the body runs `m.webhooks = append(m.webhooks[:i], m.webhooks[i+1:]...)`:
the slice expression `m.webhooks[i+1:]` panics unless `i+1 <= len`; otherwise the
cells `i+1 .. len-1` are moved one place down inside the same backing array, the
cell `len-1` keeps its old content and the length becomes `len-1`. -/
def deleteLoop (walletServicePubkey appPubkey : String) :
    Nat → Nat → List Webhook → Nat → Option (List Webhook × Nat)
  | 0, _, arr, len => some (arr, len)
  | left + 1, i, arr, len =>
    match arr[i]? with
    | none => none
    | some hook =>
      if hook.Compare walletServicePubkey appPubkey then
        if i + 1 ≤ len then
          deleteLoop walletServicePubkey appPubkey left (i + 1)
            (arr.take i ++ (arr.drop (i + 1)).take (len - (i + 1)) ++ arr.drop (len - 1))
            (len - 1)
        else
          none
      else
        deleteLoop walletServicePubkey appPubkey left (i + 1) arr len

/-- The method `MemoryStore.Delete`: `none` is a run-time panic, otherwise the new
store (the first `len` cells of the backing array) and the returned error
(always `nil`). -/
def MemoryStore.Delete (m : MemoryStore) (walletServicePubkey appPubkey : String) :
    Option (MemoryStore × Option Error) :=
  match deleteLoop walletServicePubkey appPubkey m.webhooks.length 0 m.webhooks
      m.webhooks.length with
  | none => none
  | some (arr, len) => some ({ m with webhooks := arr.take len }, none)

/-- The method `MemoryStore.GetAppPubkeys`: the app pubkey of every entry, in slice order. -/
def MemoryStore.GetAppPubkeys (m : MemoryStore) : List String × Option Error :=
  (m.webhooks.map (fun hook => hook.AppPubkey), none)

/-- The method `MemoryStore.IsEventForwarded`: `m.forwardedEvents[eventId]`. -/
def MemoryStore.IsEventForwarded (m : MemoryStore) (eventId : String) : Bool × Option Error :=
  (decide (eventId ∈ m.forwardedEvents), none)

/-- The method `MemoryStore.MarkEventForwarded`: `m.forwardedEvents[eventId] = true`. -/
def MemoryStore.MarkEventForwarded (m : MemoryStore) (eventId : String)
    (_walletServicePubkey _appPubkey _webhookUrl : String) : MemoryStore × Option Error :=
  ({ m with forwardedEvents :=
      if eventId ∈ m.forwardedEvents then m.forwardedEvents else eventId :: m.forwardedEvents },
   none)

/-- A call of `Set` or of `Delete` on the in-memory store. -/
inductive StoreOp where
  | set (webhook : Webhook)
  | delete (walletServicePubkey appPubkey : String)
deriving DecidableEq, Repr

/-- One call on the store; `none` when the call panics. -/
def MemoryStore.applyOp (m : MemoryStore) : StoreOp → Option MemoryStore
  | .set webhook => some (m.Set webhook).1
  | .delete wsp app => (m.Delete wsp app).map (fun r => r.1)

/-- A finite sequence of calls, run in order; `none` as soon as one panics. -/
def MemoryStore.run (m : MemoryStore) : List StoreOp → Option MemoryStore
  | [] => some m
  | op :: ops =>
    match m.applyOp op with
    | none => none
    | some m' => m'.run ops

/-- Two entries that do not carry the same `(wallet_service_pubkey, app_pubkey)` pair. -/
def KeyDistinct (a b : Webhook) : Prop :=
  ¬ (a.AppPubkey = b.AppPubkey ∧ a.WalletServicePubkey = b.WalletServicePubkey)

/-! ## nwc/manager.go -/

/-- The order `<` of Go strings (bytewise lexicographic, which on UTF-8 text is the
lexicographic order of the code points). -/
def stringLess (x y : String) : Bool :=
  decide (x.data < y.data)

/-- The library function `cmp.Compare` at type `string`: `-1` if `x < y`, `+1` if
`x > y`, `0` otherwise. -/
def cmpCompare (x y : String) : Int :=
  if stringLess x y then -1 else if stringLess y x then 1 else 0

/-- The library function `slices.Compare` at type `[]string`: the result of the first
non-matching pair of elements; when one slice runs out first, the shorter one is
the smaller. -/
def slicesCompare : List String → List String → Int
  | [], [] => 0
  | [], _ :: _ => -1
  | _ :: _, [] => 1
  | v1 :: s1, v2 :: s2 =>
    if cmpCompare v1 v2 ≠ 0 then cmpCompare v1 v2 else slicesCompare s1 s2

/-- Sorting a list of pubkeys by the string order (what the specification calls
`sort`; the source has no such call). -/
def sortPubkeys (l : List String) : List String :=
  l.insertionSort (fun a b => a.data ≤ b.data)

/-- The struct `Subscription`. A cancellation scope is identified by a number, and so
is a channel; `cancel` holds the scope the cancel function cancels; `eventChannel`
is `none` for a `nil` channel. -/
structure Subscription where
  ctx : Nat
  cancel : Nat
  eventChannel : Option Nat
deriving DecidableEq, Repr

/-- The struct `NostrManager` (without the `store` pointer, whose answers are passed to
the methods). `muLocked` is the state of the mutex `mu`; `pool`, `ctx` and `cancel`
are `none` while they are `nil`; `lastAppPubkeys` is `none` while the slice is `nil`. -/
structure NostrManager where
  pool : Option Nat
  ctx : Option Nat
  cancel : Option Nat
  muLocked : Bool
  isRunning : Bool
  sub : Option Subscription
  lastAppPubkeys : Option (List String)
deriving DecidableEq, Repr

/-- One call of `SimplePool.SubMany`: the scope and relays it was given, the `Authors`
of its filter, and the channel it returned. -/
structure SubManyCall where
  ctx : Nat
  relays : List String
  authors : List String
  channel : Nat
deriving DecidableEq, Repr

/-- What the manager has done to its environment: `nextId` numbers the next scope,
pool or channel to be created, `subManyCalls` lists the calls of `SubMany` (latest
first), `cancelled` the scopes cancelled, `closed` the channels closed, `loops`
counts the `go nm.StartResubscriptionLoop()` statements executed and `forwarders`
lists the subscription scopes for which `go nm.forwardToNotify()` was executed. -/
structure Env where
  nextId : Nat
  subManyCalls : List SubManyCall
  cancelled : List Nat
  closed : List Nat
  loops : Nat
  forwarders : List Nat
deriving DecidableEq, Repr

/-- How a call of a manager method ends: it returns (with its error, `none` for `nil`
and for methods without a result), it panics, or it never gets past
`nm.mu.Lock()` because the mutex is held and nothing will release it. -/
inductive Outcome where
  | returned (err : Option Error)
  | panicked
  | blocked
deriving DecidableEq, Repr

/-- The constructor `NewNostrManager`: every field but `store` has its zero value. -/
def NewNostrManager : NostrManager :=
  { pool := none, ctx := none, cancel := none, muLocked := false, isRunning := false,
    sub := none, lastAppPubkeys := none }

/-- The environment before the manager has done anything. -/
def Env.initial : Env :=
  { nextId := 0, subManyCalls := [], cancelled := [], closed := [], loops := 0,
    forwarders := [] }

/-- The method `NostrManager.Resubscribe`. `getAppPubkeys` and `getRelays` are the
answers of `nm.store.Nwc.GetAppPubkeys` and `nm.store.Nwc.GetRelays`; the error of
the second is ignored by the code. The deferred `Unlock` runs on every exit, so the
mutex is free again when the method returns or panics.
`context.WithCancel` panics on a `nil` parent, and `nm.pool.SubMany` on a `nil` pool
(the subscription scope has then been created already).
The assignment `prevSub.eventChannel = nil` changes the replaced `Subscription` object
only, which the manager no longer refers to. -/
def NostrManager.Resubscribe (getAppPubkeys getRelays : List String × Option Error)
    (nm : NostrManager) (env : Env) : NostrManager × Env × Outcome :=
  if nm.muLocked then (nm, env, .blocked)
  else if !nm.isRunning then (nm, env, .returned (some "manager not running"))
  else
    match getAppPubkeys.2 with
    | some err => (nm, env, .returned (some err))
    | none =>
      let appPubkeys := getAppPubkeys.1
      if appPubkeys.length = 0 then (nm, env, .returned none)
      else if nm.lastAppPubkeys.isSome
          && slicesCompare (nm.lastAppPubkeys.getD []) appPubkeys == 0 then
        (nm, env, .returned none)
      else
        let relays := getRelays.1
        let prevSub := nm.sub
        match nm.ctx, nm.pool with
        | none, _ => (nm, env, .panicked)
        | some _, none => (nm, { env with nextId := env.nextId + 1 }, .panicked)
        | some rootCtx, some _ =>
          let subCtx := env.nextId
          let channel := env.nextId + 1
          let call : SubManyCall :=
            { ctx := rootCtx, relays := relays, authors := appPubkeys, channel := channel }
          let newSub : Subscription :=
            { ctx := subCtx, cancel := subCtx, eventChannel := some channel }
          let env1 : Env :=
            { env with nextId := env.nextId + 2, subManyCalls := call :: env.subManyCalls,
                       forwarders := subCtx :: env.forwarders }
          let env2 : Env :=
            match prevSub with
            | some prev => { env1 with cancelled := prev.cancel :: env1.cancelled }
            | none => env1
          ({ nm with sub := some newSub, lastAppPubkeys := some appPubkeys }, env2,
            .returned none)

/-- The method `NostrManager.Start`. It takes the mutex; when the manager is already
running it returns at once, and the source has no `Unlock` on that path (the
`Unlock` is not deferred, it is the statement after the log line). -/
def NostrManager.Start (nm : NostrManager) (env : Env) : NostrManager × Env × Outcome :=
  if nm.muLocked then (nm, env, .blocked)
  else if nm.isRunning then ({ nm with muLocked := true }, env, .returned none)
  else
    ({ nm with ctx := some env.nextId, cancel := some env.nextId,
               pool := some (env.nextId + 1), isRunning := true, muLocked := false },
     { env with nextId := env.nextId + 2, loops := env.loops + 1 },
     .returned none)

/-- The method `NostrManager.cancelSubscription` for the subscription `sub` held in
`nm.sub`: `sub.cancel()`, then `close(sub.eventChannel)` (closing a `nil` channel
panics), then `nm.sub = nil`. -/
def NostrManager.cancelSubscription (nm : NostrManager) (env : Env) (sub : Subscription) :
    NostrManager × Env × Outcome :=
  match sub.eventChannel with
  | none => (nm, { env with cancelled := sub.cancel :: env.cancelled }, .panicked)
  | some channel =>
    ({ nm with sub := none },
     { env with cancelled := sub.cancel :: env.cancelled, closed := channel :: env.closed },
     .returned none)

/-- The method `NostrManager.Stop`, with its deferred `Unlock`. -/
def NostrManager.Stop (nm : NostrManager) (env : Env) : NostrManager × Env × Outcome :=
  if nm.muLocked then (nm, env, .blocked)
  else if !nm.isRunning then (nm, env, .returned none)
  else
    let afterSub : NostrManager × Env × Outcome :=
      match nm.sub with
      | some sub => nm.cancelSubscription env sub
      | none => (nm, env, .returned none)
    match afterSub with
    | (nm1, env1, .returned _) =>
      let env2 : Env :=
        match nm1.cancel with
        | some c => { env1 with cancelled := c :: env1.cancelled }
        | none => env1
      ({ nm1 with isRunning := false }, env2, .returned none)
    | (nm1, env1, out) => (nm1, env1, out)

/-- A call of one of the three public methods of the manager; a `resubscribe` carries
the answers the store gives to that call. -/
inductive ManagerOp where
  | start
  | stop
  | resubscribe (getAppPubkeys getRelays : List String × Option Error)
deriving DecidableEq, Repr

/-- One call on the manager. -/
def NostrManager.applyOp (nm : NostrManager) (env : Env) :
    ManagerOp → NostrManager × Env × Outcome
  | .start => nm.Start env
  | .stop => nm.Stop env
  | .resubscribe getAppPubkeys getRelays => nm.Resubscribe getAppPubkeys getRelays env

/-- A finite sequence of calls, each made after the previous one has ended (a call
that blocks on the mutex changes nothing). -/
def NostrManager.run (nm : NostrManager) (env : Env) : List ManagerOp → NostrManager × Env
  | [] => (nm, env)
  | op :: ops => NostrManager.run (nm.applyOp env op).1 (nm.applyOp env op).2.1 ops

/-- The same `Resubscribe` call repeated `n` times, as the resubscription loop does
while the store keeps giving the same answers. -/
def NostrManager.resubscribeTimes (getAppPubkeys getRelays : List String × Option Error) :
    Nat → NostrManager → Env → NostrManager × Env
  | 0, nm, env => (nm, env)
  | n + 1, nm, env =>
    NostrManager.resubscribeTimes getAppPubkeys getRelays n
      (nm.Resubscribe getAppPubkeys getRelays env).1
      (nm.Resubscribe getAppPubkeys getRelays env).2.1

/-- An incoming Nostr event, as far as the forwarder reads it. -/
structure Event where
  ID : String
  PubKey : String
  Tags : List (List String)
deriving DecidableEq, Repr

/-- How the HTTP exchange of `SendRequest` goes: `http.NewRequestWithContext` fails,
`http.DefaultClient.Do` fails (a transport error, a cancelled scope included), or a
response with a status code arrives. -/
inductive HttpOutcome where
  | requestError (err : Error)
  | transportError (err : Error)
  | response (statusCode : Int)
deriving DecidableEq, Repr

/-- The answers of the library and store calls made while one event is handled:
`checkSignature` is the pair returned by `incomingEvent.CheckSignature()` (the verdict
and the error), `pTag` the result of `incomingEvent.Tags.GetFirst([]string{"p"})`,
`isEventForwarded`, `get` and `markEventForwarded` the results of the store calls,
`http` the course of the POST. -/
structure EventResponses where
  checkSignature : Bool × Option Error
  pTag : Option (List String)
  isEventForwarded : Bool × Option Error
  get : Option Webhook × Option Error
  http : HttpOutcome
  markEventForwarded : Option Error
deriving DecidableEq, Repr

/-- A call the forwarder makes for an event: the POST of `SendRequest` or the store
call `MarkEventForwarded`, each with the cancellation scope it is given. -/
inductive Action where
  | post (ctx : Nat) (url eventId : String)
  | mark (ctx : Nat) (eventId walletServicePubkey appPubkey webhookUrl : String)
deriving DecidableEq, Repr

/-- The library method `Tag.Value`: the second element of the tag, or the empty string. -/
def tagValue (tag : List String) : String :=
  tag.getD 1 ""

/-- The method `NostrManager.SendRequest`, given the course of the HTTP exchange
(`json.Marshal` cannot fail on the message it is given): the returned error. -/
def NostrManager.SendRequest (http : HttpOutcome) : Option Error :=
  match http with
  | .requestError err => some err
  | .transportError err => some err
  | .response statusCode =>
    if statusCode < 200 ∨ statusCode ≥ 300 then
      some ("webhook returned status: " ++ toString statusCode)
    else
      none

/-- The body of the `case incomingEvent := <-sub.eventChannel` branch of
`NostrManager.forwardToNotify` for a non-nil event, followed by the goroutine it
starts: the calls made for the event, in order. `sub` is the subscription the
forwarder captured when it started. -/
def NostrManager.forwardEvent (sub : Subscription) (ev : Event) (r : EventResponses) :
    List Action :=
  match r.checkSignature.2 with
  | some _ => []
  | none =>
    match r.pTag with
    | none => []
    | some pTag =>
      let walletServicePubkey := tagValue pTag
      match r.isEventForwarded.2 with
      | some _ => []
      | none =>
        if r.isEventForwarded.1 then []
        else
          match r.get.2 with
          | some _ => []
          | none =>
            match r.get.1 with
            | none => []
            | some webhook =>
              match NostrManager.SendRequest r.http with
              | some _ => [Action.post sub.ctx webhook.Url ev.ID]
              | none =>
                [Action.post sub.ctx webhook.Url ev.ID,
                 Action.mark sub.ctx ev.ID walletServicePubkey ev.PubKey webhook.Url]

/-- Whether `MarkEventForwarded` is called for the event id. -/
def marksForwarded (eventId : String) (actions : List Action) : Bool :=
  actions.any (fun a =>
    match a with
    | .mark _ id _ _ _ => id == eventId
    | .post _ _ _ => false)

/-- The cancellation scope a call of the forwarder is given: the first argument of
`nm.SendRequest` and of `nm.store.Nwc.MarkEventForwarded`. -/
def Action.scope : Action → Nat
  | .post ctx _ _ => ctx
  | .mark ctx _ _ _ _ => ctx

/-- What holds of the manager and its environment after any sequence of `Start`, `Stop`
and `Resubscribe` calls: a running manager has its root scope and its pool; every
scope in use was numbered before `nextId`; and a subscription is held by a running
manager only, has a channel, is cancelled by its own cancel function and has a
scope other than the root scope. -/
def ManagerInv (nm : NostrManager) (env : Env) : Prop :=
  (nm.isRunning = true → nm.ctx.isSome = true ∧ nm.pool.isSome = true) ∧
    (∀ c, nm.ctx = some c → c < env.nextId) ∧
    (∀ s, nm.sub = some s →
      nm.isRunning = true ∧ s.cancel = s.ctx ∧ s.eventChannel.isSome = true ∧
        s.ctx < env.nextId ∧ nm.ctx ≠ some s.ctx)

/-! ## nwc/router.go -/

/-- One lowercase hexadecimal digit. -/
def hexDigit (n : Nat) : Char :=
  "0123456789abcdef".data.getD n '0'

/-- The library function `hex.EncodeToString` on a sequence of bytes. -/
def hexEncodeToString (bytes : List Nat) : String :=
  String.mk (bytes.flatMap (fun b => [hexDigit (b / 16 % 16), hexDigit (b % 16)]))

/-- The rendering of a `[]string` by the verb `%v`: the elements separated by blanks,
in square brackets. -/
def fmtStringSlice (l : List String) : String :=
  "[" ++ " ".intercalate l ++ "]"

/-- The struct `RegisterNostrEventsRequest`. -/
structure RegisterNostrEventsRequest where
  WebhookUrl : String
  UserPubkey : String
  AppPubkey : String
  Relays : List String
  Signature : String
deriving DecidableEq, Repr

/-- The struct `UnregisterNostrEventsRequest`. -/
structure UnregisterNostrEventsRequest where
  Time : Int
  UserPubkey : String
  AppPubkey : String
  Signature : String
deriving DecidableEq, Repr

/-- The library function `lightning.VerifyMessage` followed by `SerializeCompressed`:
from a message and a signature, an error or the compressed serialization of the
recovered public key. -/
abbrev Verifier := String → String → Except Error (List Nat)

/-- The local `messageToVerify` of `RegisterNostrEventsRequest.Verify`:
`fmt.Sprintf("%v-%v-%v-%v", w.WebhookUrl, w.UserPubkey, w.AppPubkey, w.Relays)`. -/
def RegisterNostrEventsRequest.messageToVerify (w : RegisterNostrEventsRequest) : String :=
  w.WebhookUrl ++ "-" ++ w.UserPubkey ++ "-" ++ w.AppPubkey ++ "-" ++ fmtStringSlice w.Relays

/-- The method `RegisterNostrEventsRequest.Verify`. -/
def RegisterNostrEventsRequest.Verify (verifyMessage : Verifier)
    (w : RegisterNostrEventsRequest) (pubkey : String) : Option Error :=
  match verifyMessage w.messageToVerify w.Signature with
  | .error err => some err
  | .ok verifiedPubkey =>
    if pubkey ≠ hexEncodeToString verifiedPubkey then some "invalid signature" else none

/-- The local `messageToVerify` of `UnregisterNostrEventsRequest.Verify`:
`fmt.Sprintf("%v-%v-%v", w.Time, w.UserPubkey, w.AppPubkey)`. -/
def UnregisterNostrEventsRequest.messageToVerify (w : UnregisterNostrEventsRequest) : String :=
  toString w.Time ++ "-" ++ w.UserPubkey ++ "-" ++ w.AppPubkey

/-- The method `UnregisterNostrEventsRequest.Verify`. -/
def UnregisterNostrEventsRequest.Verify (verifyMessage : Verifier)
    (w : UnregisterNostrEventsRequest) (pubkey : String) : Option Error :=
  match verifyMessage w.messageToVerify w.Signature with
  | .error err => some err
  | .ok verifiedPubkey =>
    if pubkey ≠ hexEncodeToString verifiedPubkey then some "invalid signature" else none

/-- The signature of a request does not authenticate it for the path parameter
`walletPubkey`: verification of the message fails, or it recovers a key whose
compressed serialization, in lowercase hexadecimal, differs from `walletPubkey`. -/
def signatureRejected (verifyMessage : Verifier) (message signature walletPubkey : String) :
    Prop :=
  match verifyMessage message signature with
  | .error _ => True
  | .ok verifiedPubkey => walletPubkey ≠ hexEncodeToString verifiedPubkey

/-- What a handler has done when it returns: the status and body of the response and
the calls it made on the store, in order. -/
structure HandlerResult where
  status : Nat
  body : String
  storeCalls : List StoreOp
deriving DecidableEq, Repr

/-- The handler `NostrEventsRouter.Register`. `decoded` is the result of decoding the
request body as JSON, `walletPubkey` the path parameter of that name (`none` when
`mux.Vars` has no such entry), `setResult` the error the store returns if `Set` is
called. The webhook field that `router.go` and `pg.go` call `UserPubkey` is the one
`store.go` declares as `WalletServicePubkey`. -/
def NostrEventsRouter.Register (verifyMessage : Verifier)
    (decoded : Except Error RegisterNostrEventsRequest) (walletPubkey : Option String)
    (setResult : Option Error) : HandlerResult :=
  match decoded with
  | .error _ => { status := 400, body := "invalid json\n", storeCalls := [] }
  | .ok registerRequest =>
    match walletPubkey with
    | none => { status := 400, body := "invalid wallet pubkey\n", storeCalls := [] }
    | some walletPubkey =>
      match registerRequest.Verify verifyMessage walletPubkey with
      | some _ => { status := 401, body := "invalid signature\n", storeCalls := [] }
      | none =>
        let webhook : Webhook :=
          { WalletServicePubkey := registerRequest.UserPubkey,
            Url := registerRequest.WebhookUrl,
            AppPubkey := registerRequest.AppPubkey,
            Relays := registerRequest.Relays }
        match setResult with
        | some _ => { status := 500, body := "", storeCalls := [StoreOp.set webhook] }
        | none =>
          { status := 200, body := "Pubkey registered successfully",
            storeCalls := [StoreOp.set webhook] }

/-- The handler `NostrEventsRouter.Unregister`; `deleteResult` is the error the store
returns if `Delete` is called. -/
def NostrEventsRouter.Unregister (verifyMessage : Verifier)
    (decoded : Except Error UnregisterNostrEventsRequest) (walletPubkey : Option String)
    (deleteResult : Option Error) : HandlerResult :=
  match decoded with
  | .error _ => { status := 400, body := "invalid json\n", storeCalls := [] }
  | .ok req =>
    match walletPubkey with
    | none => { status := 400, body := "invalid pubkey\n", storeCalls := [] }
    | some walletPubkey =>
      match req.Verify verifyMessage walletPubkey with
      | some _ => { status := 401, body := "invalid signature\n", storeCalls := [] }
      | none =>
        match deleteResult with
        | some _ =>
          { status := 500, body := "",
            storeCalls := [StoreOp.delete req.UserPubkey req.AppPubkey] }
        | none =>
          { status := 200, body := "Pubkey unregistered successfully",
            storeCalls := [StoreOp.delete req.UserPubkey req.AppPubkey] }

/-! ## persist/nwc/pg.go -/

/-- The value of one hexadecimal digit, upper or lower case; `none` for any other
character. -/
def fromHexChar (c : Char) : Option Nat :=
  if '0' ≤ c ∧ c ≤ '9' then some (c.toNat - '0'.toNat)
  else if 'a' ≤ c ∧ c ≤ 'f' then some (c.toNat - 'a'.toNat + 10)
  else if 'A' ≤ c ∧ c ≤ 'F' then some (c.toNat - 'A'.toNat + 10)
  else none

/-- Decoding pairs of hexadecimal digits into bytes; `none` on a character that is no
digit and on an odd number of characters. -/
def hexDecodeChars : List Char → Option (List Nat)
  | [] => some []
  | [_] => none
  | a :: b :: rest =>
    match fromHexChar a, fromHexChar b, hexDecodeChars rest with
    | some hi, some lo, some bytes => some ((hi * 16 + lo) :: bytes)
    | _, _, _ => none

/-- The library function `hex.DecodeString`; `none` stands for its error. -/
def hexDecodeString (s : String) : Option (List Nat) :=
  hexDecodeChars s.data

/-- A row of the table `nwc_webhooks`, with the columns the statements of `pg.go` name. -/
structure WebhookRow where
  id : Nat
  url : String
  user_pubkey : List Nat
  app_pubkey : List Nat
  updated_at : Nat
deriving DecidableEq, Repr

/-- Modelled from the spec: the table definitions are not among the sources; the spec
gives `nwc_webhooks(id PK, url, user_pubkey, app_pubkey, updated_at)` with
`UNIQUE(user_pubkey, app_pubkey)`, `nwc_relays(id INT PK, url)` and
`nwc_webhooks_relays(webhook_id, relay_id)` with that pair as primary key.
`nextWebhookId` is the value the database gives the `id` of the next inserted
registration. -/
structure PgDb where
  nwc_webhooks : List WebhookRow
  nwc_relays : List (Nat × String)
  nwc_webhooks_relays : List (Nat × Nat)
  nextWebhookId : Nat
deriving DecidableEq, Repr

/-- The database with empty tables. -/
def PgDb.empty : PgDb :=
  { nwc_webhooks := [], nwc_relays := [], nwc_webhooks_relays := [], nextWebhookId := 1 }

/-- Whether a registration row carries the given pair of pubkeys. -/
def WebhookRow.hasKey (row : WebhookRow) (userPubkey appPubkey : List Nat) : Bool :=
  row.user_pubkey == userPubkey && row.app_pubkey == appPubkey

/-- The statement `INSERT INTO nwc_webhooks ... ON CONFLICT (user_pubkey, app_pubkey)
DO UPDATE SET url = $1, updated_at = NOW() RETURNING id`: the new table, the next id
of the database and the returned id. -/
def upsertWebhook (now : Nat) (rows : List WebhookRow) (nextId : Nat) (url : String)
    (userPubkey appPubkey : List Nat) : List WebhookRow × Nat × Nat :=
  match rows.find? (fun row => row.hasKey userPubkey appPubkey) with
  | some found =>
    (rows.map (fun row =>
        if row.hasKey userPubkey appPubkey then { row with url := url, updated_at := now }
        else row),
      nextId, found.id)
  | none =>
    (rows ++ [{ id := nextId, url := url, user_pubkey := userPubkey,
                app_pubkey := appPubkey, updated_at := now }],
      nextId + 1, nextId)

/-- The assignment `relays[url] = id` on a Go map, kept as a list of pairs with
distinct keys. -/
def mapAssign (m : List (String × Nat)) (url : String) (id : Nat) : List (String × Nat) :=
  if m.any (fun e => e.1 == url) then
    m.map (fun e => if e.1 == url then (url, id) else e)
  else
    m ++ [(url, id)]

/-- The function `getRelaysByUrl`: the map from url to id built from the rows of
`nwc_relays`. -/
def getRelaysByUrl (rows : List (Nat × String)) : List (String × Nat) :=
  rows.foldl (fun m row => mapAssign m row.2 row.1) []

/-- The statement `INSERT INTO nwc_relays (id, url) VALUES ($1, $2) ON CONFLICT (id)
DO UPDATE SET url = EXCLUDED.url`. -/
def upsertRelay (rows : List (Nat × String)) (id : Nat) (url : String) : List (Nat × String) :=
  if rows.any (fun row => row.1 == id) then
    rows.map (fun row => if row.1 == id then (id, url) else row)
  else
    rows ++ [(id, url)]

/-- The statement `INSERT INTO nwc_webhooks_relays (webhook_id, relay_id) VALUES ($1, $2)
ON CONFLICT DO NOTHING`. -/
def insertLink (links : List (Nat × Nat)) (webhookId relayId : Nat) : List (Nat × Nat) :=
  if (webhookId, relayId) ∈ links then links else links ++ [(webhookId, relayId)]

/-- The loop `for _, relayUrl := range webhook.Relays` of `PgStore.Set`, on the triple
of the table `nwc_relays`, the table `nwc_webhooks_relays` and the local map `relays`.
A url that the map already holds is skipped by `continue`; any other url is written to
the directory under the id `len(relays) % constant.NWC_MAX_RELAYS_LENGTH`, linked to
the registration and recorded in the map. -/
def setRelaysLoop (maxRelays webhookId : Nat) :
    List String → List (Nat × String) × List (Nat × Nat) × List (String × Nat) →
      List (Nat × String) × List (Nat × Nat) × List (String × Nat)
  | [], st => st
  | relayUrl :: rest, (directory, links, relays) =>
    if relays.any (fun e => e.1 == relayUrl) then
      setRelaysLoop maxRelays webhookId rest (directory, links, relays)
    else
      setRelaysLoop maxRelays webhookId rest
        (upsertRelay directory (relays.length % maxRelays) relayUrl,
         insertLink links webhookId (relays.length % maxRelays),
         mapAssign relays relayUrl (relays.length % maxRelays))

/-- The method `PgStore.Set`, run against a database that executes every statement
(`maxRelays` is the constant `constant.NWC_MAX_RELAYS_LENGTH`, which is not among the
sources, and `now` the value of `NOW()`): the database after the call and the returned
error. A failed `hex.DecodeString` returns before the transaction begins. -/
def PgStore.Set (maxRelays now : Nat) (db : PgDb) (webhook : Webhook) : PgDb × Option Error :=
  match hexDecodeString webhook.WalletServicePubkey with
  | none => (db, some "encoding/hex: invalid byte or odd length")
  | some userPubkey =>
    match hexDecodeString webhook.AppPubkey with
    | none => (db, some "encoding/hex: invalid byte or odd length")
    | some appPubkey =>
      let up := upsertWebhook now db.nwc_webhooks db.nextWebhookId webhook.Url userPubkey
        appPubkey
      let relays := getRelaysByUrl db.nwc_relays
      let st := setRelaysLoop maxRelays up.2.2 webhook.Relays
        (db.nwc_relays, db.nwc_webhooks_relays, relays)
      ({ nwc_webhooks := up.1, nwc_relays := st.1, nwc_webhooks_relays := st.2.1,
         nextWebhookId := up.2.1 }, none)

/-- The query `SELECT nr.url FROM nwc_webhooks_relays nwr INNER JOIN nwc_relays nr ON
nwr.relay_id = nr.id WHERE nwr.webhook_id = $1`. -/
def relayUrlsOf (db : PgDb) (webhookId : Nat) : List String :=
  (db.nwc_webhooks_relays.filter (fun link => link.1 == webhookId)).flatMap
    (fun link => (db.nwc_relays.filter (fun row => row.1 == link.2)).map (fun row => row.2))

/-- The method `PgStore.Get`, run against a database that executes every statement:
an error for a pubkey that is not hexadecimal, `nil, nil` when no row has the key
(`pgx.ErrNoRows`), otherwise the registration with the urls its links resolve to. -/
def PgStore.Get (db : PgDb) (userPubkey appPubkey : String) : Option Webhook × Option Error :=
  match hexDecodeString userPubkey with
  | none => (none, some "invalid user pubkey: encoding/hex: invalid byte or odd length")
  | some userPubkeyBytes =>
    match hexDecodeString appPubkey with
    | none => (none, some "invalid app pubkey: encoding/hex: invalid byte or odd length")
    | some appPubkeyBytes =>
      match db.nwc_webhooks.find? (fun row => row.hasKey userPubkeyBytes appPubkeyBytes) with
      | none => (none, none)
      | some row =>
        (some { Relays := relayUrlsOf db row.id, AppPubkey := appPubkey,
                WalletServicePubkey := userPubkey, Url := row.url }, none)

/-! ## The in-memory store: lemmas -/

theorem Webhook.compare_self (w : Webhook) :
    w.Compare w.WalletServicePubkey w.AppPubkey = true := by
  simp [Webhook.Compare]

theorem Webhook.compare_eq_true_iff (w : Webhook) (wsp app : String) :
    w.Compare wsp app = true ↔ w.AppPubkey = app ∧ w.WalletServicePubkey = wsp := by
  simp [Webhook.Compare]

theorem find_setWebhooks (webhook : Webhook) (l : List Webhook) :
    (setWebhooks webhook l).find?
      (fun hook => hook.Compare webhook.WalletServicePubkey webhook.AppPubkey) = some webhook := by
  induction l with
  | nil => simp [setWebhooks, Webhook.compare_self]
  | cons hook rest ih =>
    unfold setWebhooks
    by_cases h : hook.Compare webhook.WalletServicePubkey webhook.AppPubkey = true
    · simp [h, Webhook.compare_self]
    · simp [h, ih]

theorem mem_setWebhooks {webhook b : Webhook} {l : List Webhook}
    (hb : b ∈ setWebhooks webhook l) : b = webhook ∨ b ∈ l := by
  induction l with
  | nil => simpa [setWebhooks] using hb
  | cons hook rest ih =>
    unfold setWebhooks at hb
    by_cases h : hook.Compare webhook.WalletServicePubkey webhook.AppPubkey = true
    · simp [h] at hb
      rcases hb with hb | hb
      · exact Or.inl hb
      · exact Or.inr (List.mem_cons_of_mem _ hb)
    · simp [h] at hb
      rcases hb with hb | hb
      · exact Or.inr (by simp [hb])
      · rcases ih hb with hb | hb
        · exact Or.inl hb
        · exact Or.inr (List.mem_cons_of_mem _ hb)

theorem pairwise_setWebhooks (webhook : Webhook) {l : List Webhook}
    (hl : l.Pairwise KeyDistinct) : (setWebhooks webhook l).Pairwise KeyDistinct := by
  induction l with
  | nil => simp [setWebhooks]
  | cons hook rest ih =>
    rw [List.pairwise_cons] at hl
    unfold setWebhooks
    by_cases h : hook.Compare webhook.WalletServicePubkey webhook.AppPubkey = true
    · rw [if_pos h, List.pairwise_cons]
      rw [Webhook.compare_eq_true_iff] at h
      refine ⟨fun b hb => ?_, hl.2⟩
      have := hl.1 b hb
      unfold KeyDistinct at this ⊢
      rw [← h.1, ← h.2]
      exact this
    · rw [if_neg h, List.pairwise_cons]
      refine ⟨fun b hb => ?_, ih hl.2⟩
      rcases mem_setWebhooks hb with hb | hb
      · subst hb
        unfold KeyDistinct
        rw [Webhook.compare_eq_true_iff] at h
        exact h
      · exact hl.1 b hb

theorem countP_le_one_of_pairwise {l : List Webhook} (hl : l.Pairwise KeyDistinct)
    (wsp app : String) : l.countP (fun hook => hook.Compare wsp app) ≤ 1 := by
  induction l with
  | nil => simp
  | cons hook rest ih =>
    rw [List.pairwise_cons] at hl
    by_cases h : hook.Compare wsp app = true
    · have hz : rest.countP (fun hook => hook.Compare wsp app) = 0 := by
        rw [List.countP_eq_zero]
        intro b hb hc
        rw [Webhook.compare_eq_true_iff] at h hc
        exact hl.1 b hb ⟨h.1.trans hc.1.symm, h.2.trans hc.2.symm⟩
      simp [List.countP_cons, h, hz]
    · have := ih hl.2
      simp [List.countP_cons, h, this]

theorem deleteLoop_of_no_match (wsp app : String) (left : Nat) :
    ∀ (i : Nat) (arr : List Webhook) (len : Nat),
      (∀ h ∈ arr, h.Compare wsp app = false) → i + left = arr.length →
      deleteLoop wsp app left i arr len = some (arr, len) := by
  induction left with
  | zero => intro i arr len _ _; rfl
  | succ left ih =>
    intro i arr len hno hlen
    have hi : i < arr.length := by omega
    unfold deleteLoop
    rw [List.getElem?_eq_getElem hi]
    simp only [hno _ (List.getElem_mem hi), Bool.false_eq_true, ↓reduceIte]
    exact ih (i + 1) arr len hno (by omega)

theorem deleteLoop_skip (wsp app : String) (arr : List Webhook) (len k : Nat) (j : Nat) :
    ∀ (i : Nat), (∀ t h, i ≤ t → t < i + j → arr[t]? = some h → h.Compare wsp app = false) →
      i + j ≤ arr.length →
      deleteLoop wsp app (j + k) i arr len = deleteLoop wsp app k (i + j) arr len := by
  induction j with
  | zero => intro i _ _; simp
  | succ j ih =>
    intro i hno hlen
    have hi : i < arr.length := by omega
    have e : j + 1 + k = (j + k) + 1 := by omega
    rw [e]
    conv => lhs; unfold deleteLoop
    rw [List.getElem?_eq_getElem hi]
    have := hno i arr[i] (le_refl _) (by omega) (List.getElem?_eq_getElem hi)
    simp only [this, Bool.false_eq_true, ↓reduceIte]
    rw [ih (i + 1) (fun t h h1 h2 h3 => hno t h (by omega) (by omega) h3) (by omega)]
    have e2 : i + 1 + j = i + (j + 1) := by omega
    rw [e2]

theorem deleteLoop_of_single_match (wsp app : String) (pre post : List Webhook) (x : Webhook)
    (hpre : ∀ h ∈ pre, h.Compare wsp app = false) (hx : x.Compare wsp app = true)
    (hpost : ∀ h ∈ post, h.Compare wsp app = false) :
    ∃ tail, deleteLoop wsp app (pre ++ x :: post).length 0 (pre ++ x :: post)
        (pre ++ x :: post).length = some (pre ++ post ++ tail, (pre ++ post).length) := by
  have hlen : (pre ++ x :: post).length = pre.length + (post.length + 1) := by simp
  have hskip := deleteLoop_skip wsp app (pre ++ x :: post) (pre ++ x :: post).length
    (post.length + 1) pre.length 0
    (fun t h _ h2 h3 => by
      rw [List.getElem?_append_left (by omega)] at h3
      exact hpre h (List.getElem?_mem h3))
    (by simp)
  rw [← hlen] at hskip
  rw [hskip]
  unfold deleteLoop
  have hget : (pre ++ x :: post)[0 + pre.length]? = some x := by
    rw [Nat.zero_add, List.getElem?_append_right (le_refl _)]
    simp
  rw [hget]
  simp only [hx, if_true]
  have hle : 0 + pre.length + 1 ≤ (pre ++ x :: post).length := by rw [hlen]; omega
  rw [if_pos hle]
  have htake : (pre ++ x :: post).take (0 + pre.length) = pre := by simp
  have hdrop : ((pre ++ x :: post).drop (0 + pre.length + 1)).take
      ((pre ++ x :: post).length - (0 + pre.length + 1)) = post := by
    have : (pre ++ x :: post).drop (0 + pre.length + 1) = post := by
      rw [show 0 + pre.length + 1 = pre.length + 1 by omega, ← List.drop_drop]
      simp
    rw [this, hlen]
    exact List.take_of_length_le (by omega)
  rw [htake, hdrop]
  have hl2 : (pre ++ x :: post).length - 1 = (pre ++ post).length := by simp
  rw [hl2]
  refine ⟨(pre ++ x :: post).drop (pre ++ post).length, ?_⟩
  cases post with
  | nil => simp [deleteLoop]
  | cons y post' =>
    apply deleteLoop_of_no_match
    · intro h hh
      simp only [List.mem_append] at hh
      rcases hh with (hh | hh) | hh
      · exact hpre h hh
      · exact hpost h hh
      · have hd : (pre ++ x :: y :: post').drop (pre ++ y :: post').length
            = (y :: post').drop post'.length := by
          rw [show (pre ++ y :: post').length = pre.length + (post'.length + 1) by simp,
            ← List.drop_drop]
          simp
        rw [hd] at hh
        exact hpost h (List.mem_of_mem_drop hh)
    · simp
      omega

theorem delete_eq_filter (m : MemoryStore) (hm : m.webhooks.Pairwise KeyDistinct)
    (wsp app : String) :
    m.Delete wsp app =
      some ({ m with webhooks := m.webhooks.filter (fun h => !h.Compare wsp app) }, none) := by
  unfold MemoryStore.Delete
  by_cases hex : ∃ x ∈ m.webhooks, x.Compare wsp app = true
  · obtain ⟨x, hxmem, hx⟩ := hex
    obtain ⟨pre, post, hsplit⟩ := List.append_of_mem hxmem
    rw [hsplit] at hm ⊢
    rw [List.pairwise_append, List.pairwise_cons] at hm
    obtain ⟨_, ⟨hxpost, _⟩, hprex⟩ := hm
    rw [Webhook.compare_eq_true_iff] at hx
    have hpre : ∀ h ∈ pre, h.Compare wsp app = false := by
      intro h hh
      have hd := hprex h hh x (List.mem_cons_self _ _)
      cases hc : h.Compare wsp app with
      | false => rfl
      | true =>
        rw [Webhook.compare_eq_true_iff] at hc
        exact absurd ⟨hc.1.trans hx.1.symm, hc.2.trans hx.2.symm⟩ hd
    have hpost : ∀ h ∈ post, h.Compare wsp app = false := by
      intro h hh
      have hd := hxpost h hh
      cases hc : h.Compare wsp app with
      | false => rfl
      | true =>
        rw [Webhook.compare_eq_true_iff] at hc
        exact absurd ⟨hx.1.trans hc.1.symm, hx.2.trans hc.2.symm⟩ hd
    have hx' : x.Compare wsp app = true := (Webhook.compare_eq_true_iff _ _ _).2 hx
    obtain ⟨tail, htail⟩ := deleteLoop_of_single_match wsp app pre post x hpre hx' hpost
    rw [htail]
    have hf : (pre ++ x :: post).filter (fun h => !h.Compare wsp app) = pre ++ post := by
      rw [List.filter_append, List.filter_cons]
      simp only [hx', Bool.not_true, Bool.false_eq_true, ↓reduceIte]
      congr 1
      · exact List.filter_eq_self.2 (fun h hh => by simp [hpre h hh])
      · exact List.filter_eq_self.2 (fun h hh => by simp [hpost h hh])
    simp only [hf, List.take_left' rfl]
  · have hno : ∀ h ∈ m.webhooks, h.Compare wsp app = false := by
      intro h hh
      cases hc : h.Compare wsp app with
      | false => rfl
      | true => exact absurd ⟨h, hh, hc⟩ hex
    rw [deleteLoop_of_no_match wsp app m.webhooks.length 0 m.webhooks m.webhooks.length hno
      (by omega)]
    have hf : m.webhooks.filter (fun h => !h.Compare wsp app) = m.webhooks :=
      List.filter_eq_self.2 (fun h hh => by simp [hno h hh])
    simp only [hf, List.take_length]

theorem run_preserves_unique (ops : List StoreOp) :
    ∀ m : MemoryStore, m.webhooks.Pairwise KeyDistinct →
      ∃ s, m.run ops = some s ∧ s.webhooks.Pairwise KeyDistinct := by
  induction ops with
  | nil => intro m hm; exact ⟨m, rfl, hm⟩
  | cons op ops ih =>
    intro m hm
    cases op with
    | set webhook =>
      simp only [MemoryStore.run, MemoryStore.applyOp]
      exact ih _ (pairwise_setWebhooks webhook hm)
    | delete wsp app =>
      simp only [MemoryStore.run, MemoryStore.applyOp, delete_eq_filter m hm, Option.map_some']
      exact ih _ (List.Pairwise.sublist (List.filter_sublist _) hm)

theorem reachable_unique (ops : List StoreOp) :
    ∃ s, NewMemoryStore.run ops = some s ∧ s.webhooks.Pairwise KeyDistinct :=
  run_preserves_unique ops NewMemoryStore (by simp [NewMemoryStore])

/-- C1. Round trip of the in-memory store: in every store state, `Set(W)` returns a
`nil` error, and the following `Get(W.WalletServicePubkey, W.AppPubkey)` returns a
`nil` error together with `W` itself, hence the same two pubkeys, the same url and
the same relays. -/
theorem memoryStore_set_get_roundtrip (m : MemoryStore) (W : Webhook) :
    (m.Set W).2 = none ∧
      (m.Set W).1.Get W.WalletServicePubkey W.AppPubkey = (some W, none) := by
  refine ⟨rfl, ?_⟩
  simp only [MemoryStore.Set, MemoryStore.Get, find_setWebhooks]

/-- C2. Uniqueness of the key in the in-memory store: every finite sequence of `Set`
and `Delete` calls from `NewMemoryStore()` runs to a state, in that state every
`(wallet_service_pubkey, app_pubkey)` pair has at most one entry, and `Set` applied
twice with the same key (whatever url and relays the second call carries) leaves
exactly one entry for that key. -/
theorem memoryStore_key_unique (ops : List StoreOp) :
    ∃ s, NewMemoryStore.run ops = some s ∧
      (∀ wsp app : String, s.webhooks.countP (fun hook => hook.Compare wsp app) ≤ 1) ∧
      ∀ (W : Webhook) (url : String) (relays : List String),
        ((s.Set W).1.Set ⟨W.WalletServicePubkey, W.AppPubkey, url, relays⟩).1.webhooks.countP
          (fun hook => hook.Compare W.WalletServicePubkey W.AppPubkey) = 1 := by
  obtain ⟨s, hrun, hs⟩ := reachable_unique ops
  refine ⟨s, hrun, countP_le_one_of_pairwise hs, ?_⟩
  intro W url relays
  have hp := pairwise_setWebhooks ⟨W.WalletServicePubkey, W.AppPubkey, url, relays⟩
    (pairwise_setWebhooks W hs)
  have hle := countP_le_one_of_pairwise hp W.WalletServicePubkey W.AppPubkey
  have hfind := find_setWebhooks ⟨W.WalletServicePubkey, W.AppPubkey, url, relays⟩
    (setWebhooks W s.webhooks)
  have hpos : 0 < (setWebhooks ⟨W.WalletServicePubkey, W.AppPubkey, url, relays⟩
      (setWebhooks W s.webhooks)).countP
        (fun hook => hook.Compare W.WalletServicePubkey W.AppPubkey) := by
    rw [List.countP_pos_iff]
    exact ⟨_, List.mem_of_find?_eq_some hfind, by simp [Webhook.Compare]⟩
  simp only [MemoryStore.Set]
  omega

/-- C3. `MemoryStore.Get` on an absent key: on the empty store the lookup of a key
returns a `nil` webhook together with the error "Webhook not found", and in no state
and for no key does `MemoryStore.Get` return a `nil` webhook with a `nil` error; the
same lookup on the empty relational store returns `nil, nil`. -/
theorem memoryStore_get_absent_is_error :
    NewMemoryStore.Get "02aa" "beef" = (none, some "Webhook not found") ∧
      (∀ (m : MemoryStore) (wsp app : String), m.Get wsp app ≠ (none, none)) ∧
      PgStore.Get PgDb.empty "02aa" "beef" = (none, none) := by
  refine ⟨rfl, ?_, by decide⟩
  intro m wsp app
  unfold MemoryStore.Get
  cases m.webhooks.find? (fun hook => hook.Compare wsp app) <;> simp

theorem not_compare_eq_key_differs (wsp app : String) :
    (fun hook : Webhook => !hook.Compare wsp app) =
      (fun hook : Webhook =>
        !decide (hook.WalletServicePubkey = wsp ∧ hook.AppPubkey = app)) := by
  funext hook
  by_cases h1 : hook.WalletServicePubkey = wsp <;> by_cases h2 : hook.AppPubkey = app <;>
    simp [Webhook.Compare, h1, h2]

/-- C4. `Delete` on the in-memory store: in every state reached from `NewMemoryStore()`
by `Set` and `Delete` calls (the sequence itself never panics), `Delete(wsp, appPk)`
does not panic and returns a `nil` error; the new slice holds exactly the entries of
the old one whose wallet-service pubkey differs from `wsp` or whose app pubkey differs
from `appPk`, in the original order; the dedup map is untouched; and a second `Delete`
with the same key returns a `nil` error and the same store. -/
theorem memoryStore_delete_idempotent (ops : List StoreOp) (wsp app : String) :
    ∃ s, NewMemoryStore.run ops = some s ∧
      ∃ s', s.Delete wsp app = some (s', none) ∧
        s'.webhooks = s.webhooks.filter (fun hook =>
          !decide (hook.WalletServicePubkey = wsp ∧ hook.AppPubkey = app)) ∧
        s'.forwardedEvents = s.forwardedEvents ∧
        s'.Delete wsp app = some (s', none) := by
  obtain ⟨s, hrun, hs⟩ := reachable_unique ops
  rw [← not_compare_eq_key_differs]
  refine ⟨s, hrun, _, delete_eq_filter s hs wsp app, rfl, rfl, ?_⟩
  have hs' : (s.webhooks.filter (fun hook => !hook.Compare wsp app)).Pairwise KeyDistinct :=
    List.Pairwise.sublist (List.filter_sublist _) hs
  rw [delete_eq_filter _ hs']
  simp only [List.filter_filter, Bool.and_self]

/-! ## The subscription manager: lemmas -/

theorem cmpCompare_eq_zero_iff (x y : String) : cmpCompare x y = 0 ↔ x = y := by
  unfold cmpCompare stringLess
  constructor
  · intro h
    by_cases h1 : x.data < y.data
    · simp [h1] at h
    · by_cases h2 : y.data < x.data
      · simp [h1, h2] at h
      · have : x.data = y.data := by
          rcases lt_trichotomy x.data y.data with h3 | h3 | h3
          · exact absurd h3 h1
          · exact h3
          · exact absurd h3 h2
        exact String.ext this
  · intro h
    subst h
    simp

theorem slicesCompare_eq_zero_iff (a : List String) :
    ∀ b : List String, slicesCompare a b = 0 ↔ a = b := by
  induction a with
  | nil => intro b; cases b <;> simp [slicesCompare]
  | cons v1 s1 ih =>
    intro b
    cases b with
    | nil => simp [slicesCompare]
    | cons v2 s2 =>
      unfold slicesCompare
      by_cases h : cmpCompare v1 v2 = 0
      · simp only [h, ne_eq, not_true_eq_false, ↓reduceIte, ih, List.cons.injEq]
        rw [cmpCompare_eq_zero_iff] at h
        simp [h]
      · simp only [h, ne_eq, not_false_eq_true, ↓reduceIte, List.cons.injEq, false_iff]
        rw [cmpCompare_eq_zero_iff] at h
        simp [h]

theorem gate_closed_iff (L : Option (List String)) (P : List String) :
    (L.isSome && slicesCompare (L.getD []) P == 0) = true ↔ L = some P := by
  cases L with
  | none => simp
  | some l => simp [slicesCompare_eq_zero_iff]

theorem resubscribe_of_gate_closed (nm : NostrManager) (env : Env) (P : List String)
    (getRelays : List String × Option Error)
    (hmu : nm.muLocked = false) (hrun : nm.isRunning = true)
    (hgate : P = [] ∨ nm.lastAppPubkeys = some P) :
    nm.Resubscribe (P, none) getRelays env = (nm, env, .returned none) := by
  unfold NostrManager.Resubscribe
  simp only [hmu, hrun, Bool.false_eq_true, ↓reduceIte, Bool.not_true]
  by_cases hP : P.length = 0
  · simp [hP]
  · have hL : nm.lastAppPubkeys = some P := by
      rcases hgate with h | h
      · exact absurd (by simp [h]) hP
      · exact h
    have := (gate_closed_iff nm.lastAppPubkeys P).2 hL
    simp only [hP, ↓reduceIte, this]

theorem resubscribe_of_gate_open (nm : NostrManager) (env : Env) (P : List String)
    (getRelays : List String × Option Error) (rootCtx pool : Nat)
    (hmu : nm.muLocked = false) (hrun : nm.isRunning = true)
    (hctx : nm.ctx = some rootCtx) (hpool : nm.pool = some pool)
    (hP : P ≠ []) (hL : nm.lastAppPubkeys ≠ some P) :
    (nm.Resubscribe (P, none) getRelays env).1 =
        { nm with sub := some { ctx := env.nextId, cancel := env.nextId,
                                eventChannel := some (env.nextId + 1) },
                  lastAppPubkeys := some P } ∧
      (nm.Resubscribe (P, none) getRelays env).2.1.subManyCalls =
        { ctx := rootCtx, relays := getRelays.1, authors := P, channel := env.nextId + 1 }
          :: env.subManyCalls ∧
      (nm.Resubscribe (P, none) getRelays env).2.2 = .returned none := by
  unfold NostrManager.Resubscribe
  have hlen : ¬ P.length = 0 := by
    intro h
    exact hP (List.length_eq_zero.1 h)
  have hg : ¬ ((nm.lastAppPubkeys.isSome && slicesCompare (nm.lastAppPubkeys.getD []) P == 0)
      = true) := fun h => hL ((gate_closed_iff _ _).1 h)
  simp only [hmu, hrun, Bool.false_eq_true, ↓reduceIte, Bool.not_true, hlen, hg, hctx, hpool]
  cases nm.sub <;> simp

theorem resubscribeTimes_of_gate_closed (P : List String)
    (getRelays : List String × Option Error) (n : Nat) :
    ∀ (nm : NostrManager) (env : Env), nm.muLocked = false → nm.isRunning = true →
      (P = [] ∨ nm.lastAppPubkeys = some P) →
      NostrManager.resubscribeTimes (P, none) getRelays n nm env = (nm, env) := by
  induction n with
  | zero => intro nm env _ _ _; rfl
  | succ n ih =>
    intro nm env hmu hrun hgate
    unfold NostrManager.resubscribeTimes
    rw [resubscribe_of_gate_closed nm env P getRelays hmu hrun hgate]
    exact ih nm env hmu hrun hgate

/-- The resubscribe gate as the code has it compares the pubkey lists as sequences. For a
running manager whose mutex is free and whose root scope and pool are set, and for
every list `P` the store returns without error: one `Resubscribe` adds a `SubMany`
call and replaces `nm.sub` by a subscription with a fresh channel exactly when `P`
is non-empty and `lastAppPubkeys` is unset or differs from `P` as a sequence, and
otherwise adds none and keeps `nm.sub`; and `n + 1` consecutive `Resubscribe`
calls during which the store returns the same sequence `P` add that same number of
`SubMany` calls, one at most. -/
theorem resubscribe_gate_compares_sequences (nm : NostrManager) (env : Env)
    (P : List String) (getRelays : List String × Option Error) (n : Nat)
    (hmu : nm.muLocked = false) (hrun : nm.isRunning = true)
    (hctx : nm.ctx.isSome = true) (hpool : nm.pool.isSome = true) :
    (nm.Resubscribe (P, none) getRelays env).2.1.subManyCalls.length =
        env.subManyCalls.length + (if P ≠ [] ∧ nm.lastAppPubkeys ≠ some P then 1 else 0) ∧
      (nm.Resubscribe (P, none) getRelays env).1.sub =
        (if P ≠ [] ∧ nm.lastAppPubkeys ≠ some P then
          some { ctx := env.nextId, cancel := env.nextId,
                 eventChannel := some (env.nextId + 1) }
         else nm.sub) ∧
      (NostrManager.resubscribeTimes (P, none) getRelays (n + 1) nm env).2.subManyCalls.length =
        env.subManyCalls.length + (if P ≠ [] ∧ nm.lastAppPubkeys ≠ some P then 1 else 0) := by
  obtain ⟨rootCtx, hctx'⟩ := Option.isSome_iff_exists.1 hctx
  obtain ⟨pool, hpool'⟩ := Option.isSome_iff_exists.1 hpool
  by_cases hopen : P ≠ [] ∧ nm.lastAppPubkeys ≠ some P
  · obtain ⟨h1, h2, _⟩ := resubscribe_of_gate_open nm env P getRelays rootCtx pool hmu hrun
      hctx' hpool' hopen.1 hopen.2
    simp only [if_pos hopen]
    refine ⟨by rw [h2]; simp, by rw [h1], ?_⟩
    unfold NostrManager.resubscribeTimes
    rw [resubscribeTimes_of_gate_closed P getRelays n _ _ (by rw [h1]; exact hmu)
      (by rw [h1]; exact hrun) (Or.inr (by rw [h1]))]
    rw [h2]
    simp
  · have hclosed : P = [] ∨ nm.lastAppPubkeys = some P := by
      by_cases hP : P = []
      · exact Or.inl hP
      · right
        by_contra hL
        exact hopen ⟨hP, hL⟩
    simp only [if_neg hopen]
    refine ⟨by rw [resubscribe_of_gate_closed nm env P getRelays hmu hrun hclosed]; simp,
      by rw [resubscribe_of_gate_closed nm env P getRelays hmu hrun hclosed], ?_⟩
    rw [resubscribeTimes_of_gate_closed P getRelays (n + 1) nm env hmu hrun hclosed]
    simp

/-- An instance of the gate: after `Start`, three `Resubscribe` calls during which the
store returns `["a", "b"]` issue exactly one `SubMany` call. -/
theorem resubscribe_gate_compares_sequences_witness :
    (NewNostrManager.Start Env.initial).1.muLocked = false ∧
      (NewNostrManager.Start Env.initial).1.isRunning = true ∧
      (NewNostrManager.Start Env.initial).1.ctx.isSome = true ∧
      (NewNostrManager.Start Env.initial).1.pool.isSome = true ∧
      (NostrManager.resubscribeTimes (["a", "b"], none) (["wss://r1"], none) 3
        (NewNostrManager.Start Env.initial).1
        (NewNostrManager.Start Env.initial).2.1).2.subManyCalls.length = 1 := by
  refine ⟨by decide, by decide, by decide, by decide, ?_⟩
  have h := (resubscribe_gate_compares_sequences (NewNostrManager.Start Env.initial).1
    (NewNostrManager.Start Env.initial).2.1 ["a", "b"] (["wss://r1"], none) 2
    (by decide) (by decide) (by decide) (by decide)).2.2
  rw [h]
  decide

/-- C5. The resubscribe gate takes a reordering for a change. The in-memory store
holding the registrations of the app pubkeys `a` and `b` returns `["a", "b"]` from
`GetAppPubkeys`; after `Delete` and `Set` of the registration of `a` it holds the same
two registrations and returns `["b", "a"]`; the two lists are equal once sorted. After
`Start` and a `Resubscribe` for which the store returned `["a", "b"]` the manager is
running with `lastAppPubkeys` set to `["a", "b"]` and has issued one `SubMany` call; at
the next `Resubscribe` the store returns `["b", "a"]` and a second `SubMany` call is
issued, although the set of pubkeys has not changed. -/
theorem resubscribe_same_set_other_order_resubscribes :
    (NewMemoryStore.run
        [.set ⟨"02aa", "a", "https://push.example/a", ["wss://r1"]⟩,
         .set ⟨"02aa", "b", "https://push.example/b", ["wss://r1"]⟩]).map
          (fun m => m.GetAppPubkeys) = some (["a", "b"], none) ∧
      (NewMemoryStore.run
        [.set ⟨"02aa", "a", "https://push.example/a", ["wss://r1"]⟩,
         .set ⟨"02aa", "b", "https://push.example/b", ["wss://r1"]⟩,
         .delete "02aa" "a",
         .set ⟨"02aa", "a", "https://push.example/a", ["wss://r1"]⟩]).map
          (fun m => m.GetAppPubkeys) = some (["b", "a"], none) ∧
      sortPubkeys ["b", "a"] = sortPubkeys ["a", "b"] ∧
      (NewNostrManager.run Env.initial
        [.start, .resubscribe (["a", "b"], none) (["wss://r1"], none)]).1.isRunning = true ∧
      (NewNostrManager.run Env.initial
        [.start, .resubscribe (["a", "b"], none) (["wss://r1"], none)]).1.lastAppPubkeys
          = some ["a", "b"] ∧
      (NewNostrManager.run Env.initial
        [.start, .resubscribe (["a", "b"], none) (["wss://r1"], none)]).2.subManyCalls.length
          = 1 ∧
      (NewNostrManager.run Env.initial
        [.start, .resubscribe (["a", "b"], none) (["wss://r1"], none),
         .resubscribe (["b", "a"], none) (["wss://r1"], none)]).2.subManyCalls.length = 2 := by
  decide

theorem start_of_running (nm : NostrManager) (env : Env)
    (hmu : nm.muLocked = false) (hrun : nm.isRunning = true) :
    nm.Start env = ({ nm with muLocked := true }, env, .returned none) := by
  simp [NostrManager.Start, hmu, hrun]

theorem blocked_of_locked (nm : NostrManager) (env : Env) (hmu : nm.muLocked = true)
    (getAppPubkeys getRelays : List String × Option Error) :
    nm.Start env = (nm, env, .blocked) ∧ nm.Stop env = (nm, env, .blocked) ∧
      nm.Resubscribe getAppPubkeys getRelays env = (nm, env, .blocked) := by
  simp [NostrManager.Start, NostrManager.Stop, NostrManager.Resubscribe, hmu]

/-- C8. A second `Start` leaves the mutex locked: the manager returned by `Start` is
running with the mutex free; `Start` on it returns, changes nothing else of the manager
or its environment (no further loop is launched), but leaves `mu` locked, and a
following `Stop` or `Resubscribe` never gets past `nm.mu.Lock()`. -/
theorem start_when_running_leaves_mutex_locked :
    (NewNostrManager.Start Env.initial).1.isRunning = true ∧
      (NewNostrManager.Start Env.initial).1.muLocked = false ∧
      (NewNostrManager.Start Env.initial).1.Start (NewNostrManager.Start Env.initial).2.1 =
        ({ (NewNostrManager.Start Env.initial).1 with muLocked := true },
          (NewNostrManager.Start Env.initial).2.1, .returned none) ∧
      (NewNostrManager.run Env.initial [.start, .start]).1.muLocked = true ∧
      ((NewNostrManager.run Env.initial [.start, .start]).1.Stop
        (NewNostrManager.run Env.initial [.start, .start]).2).2.2 = .blocked ∧
      ((NewNostrManager.run Env.initial [.start, .start]).1.Resubscribe
        (["a"], none) (["wss://r1"], none)
        (NewNostrManager.run Env.initial [.start, .start]).2).2.2 = .blocked := by
  decide

/-- C10. A restarted manager does not subscribe again: after `Start`, a `Resubscribe`
for which the store returned `["a"]`, `Stop` and `Start`, the manager is running with
its mutex free and holds no subscription, but `lastAppPubkeys` is still `["a"]`; a
`Resubscribe` for which the store returns the non-empty list `["a"]` returns a `nil`
error, issues no `SubMany` call and leaves `nm.sub` `nil`. -/
theorem resubscribe_after_restart_stays_absent :
    (NewNostrManager.run Env.initial
        [.start, .resubscribe (["a"], none) (["wss://r1"], none), .stop, .start]).1
      = { pool := some 5, ctx := some 4, cancel := some 4, muLocked := false,
          isRunning := true, sub := none, lastAppPubkeys := some ["a"] } ∧
      ((NewNostrManager.run Env.initial
        [.start, .resubscribe (["a"], none) (["wss://r1"], none), .stop, .start]).1.Resubscribe
          (["a"], none) (["wss://r1"], none)
          (NewNostrManager.run Env.initial
            [.start, .resubscribe (["a"], none) (["wss://r1"], none), .stop, .start]).2)
      = ((NewNostrManager.run Env.initial
            [.start, .resubscribe (["a"], none) (["wss://r1"], none), .stop, .start]).1,
         (NewNostrManager.run Env.initial
            [.start, .resubscribe (["a"], none) (["wss://r1"], none), .stop, .start]).2,
         .returned none) := by
  decide

/-! ## The forwarder and the registration handlers -/

theorem sendRequest_eq_none_iff (http : HttpOutcome) :
    NostrManager.SendRequest http = none ↔
      ∃ s : Int, http = .response s ∧ 200 ≤ s ∧ s < 300 := by
  cases http with
  | requestError err => simp [NostrManager.SendRequest]
  | transportError err => simp [NostrManager.SendRequest]
  | response s =>
    simp only [NostrManager.SendRequest, HttpOutcome.response.injEq, exists_eq_left']
    constructor
    · intro h
      by_contra hc
      have : s < 200 ∨ s ≥ 300 := by omega
      simp [this] at h
    · intro h
      have : ¬ (s < 200 ∨ s ≥ 300) := by omega
      simp [this]

/-- The forwarder calls `MarkEventForwarded` for an event exactly when
`CheckSignature` returned a `nil` error (whatever its verdict), a `p` tag was found,
`IsEventForwarded` returned `false` and a `nil` error, `Get` returned a webhook and a
`nil` error, and the POST was answered with a status in `[200, 300)`. -/
theorem marksForwarded_forwardEvent_iff (sub : Subscription) (ev : Event) (r : EventResponses) :
    marksForwarded ev.ID (NostrManager.forwardEvent sub ev r) = true ↔
      r.checkSignature.2 = none ∧ r.pTag.isSome = true ∧ r.isEventForwarded = (false, none) ∧
        (∃ webhook, r.get = (some webhook, none)) ∧
        ∃ s : Int, r.http = .response s ∧ 200 ≤ s ∧ s < 300 := by
  rw [← sendRequest_eq_none_iff]
  obtain ⟨⟨verdict, sigErr⟩, pTag, ⟨fwd, fwdErr⟩, ⟨hook, getErr⟩, http, markErr⟩ := r
  unfold NostrManager.forwardEvent
  cases sigErr <;> cases pTag <;> cases fwdErr <;> cases fwd <;> cases getErr <;> cases hook <;>
    cases hs : NostrManager.SendRequest http <;> simp [marksForwarded, hs]

/-- C6. The forwarder does not look at the verdict of the signature check: for an
event with a parsable author key for which `CheckSignature` returns the verdict `false`
with a `nil` error, whose `p` tag is found, which is not yet forwarded, whose webhook is
registered and whose POST is answered with status 200, the forwarder posts and then
calls `MarkEventForwarded` for the event id. -/
theorem forwarder_marks_event_with_false_signature_verdict :
    NostrManager.forwardEvent { ctx := 2, cancel := 2, eventChannel := some 3 }
        { ID := "f00d",
          PubKey := "79be667ef9dcbbac55a06295ce870b07029bfcdb2dce28d959f2815b16f81798",
          Tags := [["p", "02aa"]] }
        { checkSignature := (false, none), pTag := some ["p", "02aa"],
          isEventForwarded := (false, none),
          get := (some ⟨"02aa",
            "79be667ef9dcbbac55a06295ce870b07029bfcdb2dce28d959f2815b16f81798",
            "https://push.example/hook", ["wss://r1"]⟩, none),
          http := .response 200, markEventForwarded := none }
      = [Action.post 2 "https://push.example/hook" "f00d",
         Action.mark 2 "f00d" "02aa"
           "79be667ef9dcbbac55a06295ce870b07029bfcdb2dce28d959f2815b16f81798"
           "https://push.example/hook"] := by
  decide

/-- C7. Signature rejection: for a register request and an unregister request whose
bodies decode, with the path parameter `walletPubkey` present, whose signature
verification fails or recovers a key whose compressed lowercase-hex serialization
differs from `walletPubkey`, each handler answers 401 and makes no call on the store
(neither `Set` nor `Delete`, whatever the store would have answered), so every
in-memory store is left as it was. -/
theorem handlers_reject_bad_signature (verifyMessage : Verifier)
    (reg : RegisterNostrEventsRequest) (unreg : UnregisterNostrEventsRequest)
    (walletPubkey : String) (setResult deleteResult : Option Error) (m : MemoryStore)
    (hreg : signatureRejected verifyMessage reg.messageToVerify reg.Signature walletPubkey)
    (hunreg :
      signatureRejected verifyMessage unreg.messageToVerify unreg.Signature walletPubkey) :
    (NostrEventsRouter.Register verifyMessage (.ok reg) (some walletPubkey) setResult).status
        = 401 ∧
      (NostrEventsRouter.Register verifyMessage (.ok reg) (some walletPubkey)
        setResult).storeCalls = [] ∧
      m.run (NostrEventsRouter.Register verifyMessage (.ok reg) (some walletPubkey)
        setResult).storeCalls = some m ∧
      (NostrEventsRouter.Unregister verifyMessage (.ok unreg) (some walletPubkey)
        deleteResult).status = 401 ∧
      (NostrEventsRouter.Unregister verifyMessage (.ok unreg) (some walletPubkey)
        deleteResult).storeCalls = [] ∧
      m.run (NostrEventsRouter.Unregister verifyMessage (.ok unreg) (some walletPubkey)
        deleteResult).storeCalls = some m := by
  have h1 : (reg.Verify verifyMessage walletPubkey).isSome = true := by
    unfold RegisterNostrEventsRequest.Verify
    unfold signatureRejected at hreg
    cases hv : verifyMessage reg.messageToVerify reg.Signature with
    | error err => simp
    | ok pk =>
      rw [hv] at hreg
      simp only at hreg
      simp [hreg]
  have h2 : (unreg.Verify verifyMessage walletPubkey).isSome = true := by
    unfold UnregisterNostrEventsRequest.Verify
    unfold signatureRejected at hunreg
    cases hv : verifyMessage unreg.messageToVerify unreg.Signature with
    | error err => simp
    | ok pk =>
      rw [hv] at hunreg
      simp only at hunreg
      simp [hunreg]
  obtain ⟨e1, he1⟩ := Option.isSome_iff_exists.1 h1
  obtain ⟨e2, he2⟩ := Option.isSome_iff_exists.1 h2
  simp [NostrEventsRouter.Register, NostrEventsRouter.Unregister, he1, he2, MemoryStore.run]

/-- Witness for C7: a verifier that fails on the signature "bad" and otherwise
recovers the key `02aa`; a register request signed "sig" sent to the path `02bb`, and
an unregister request signed "bad". -/
theorem handlers_reject_bad_signature_witness :
    (NostrEventsRouter.Register
        (fun _ sig => if sig = "bad" then .error "invalid" else .ok [2, 170])
        (.ok ⟨"https://push.example/hook", "02bb", "beef", ["wss://r1"], "sig"⟩)
        (some "02bb") none).status = 401 ∧
      (NostrEventsRouter.Unregister
        (fun _ sig => if sig = "bad" then .error "invalid" else .ok [2, 170])
        (.ok ⟨1700000000, "02bb", "beef", "bad"⟩)
        (some "02bb") none).storeCalls = [] := by
  have h := handlers_reject_bad_signature
    (fun _ sig => if sig = "bad" then .error "invalid" else .ok [2, 170])
    ⟨"https://push.example/hook", "02bb", "beef", ["wss://r1"], "sig"⟩
    ⟨1700000000, "02bb", "beef", "bad"⟩ "02bb" none none NewMemoryStore
    (by simp [signatureRejected]; decide) (by simp [signatureRejected])
  exact ⟨h.1, h.2.2.2.2.1⟩

/-! ## The relational store -/

theorem managerInv_initial : ManagerInv NewNostrManager Env.initial := by
  simp [ManagerInv, NewNostrManager]

theorem managerInv_start (nm : NostrManager) (env : Env) (h : ManagerInv nm env) :
    ManagerInv (nm.Start env).1 (nm.Start env).2.1 := by
  obtain ⟨h1, h2, h3⟩ := h
  unfold NostrManager.Start
  by_cases hmu : nm.muLocked = true
  · rw [if_pos hmu]
    exact ⟨h1, h2, h3⟩
  · rw [if_neg hmu]
    by_cases hrun : nm.isRunning = true
    · rw [if_pos hrun]
      exact ⟨h1, h2, h3⟩
    · rw [if_neg hrun]
      have hsub : nm.sub = none := by
        cases hs : nm.sub with
        | none => rfl
        | some s => exact absurd (h3 s hs).1 hrun
      refine ⟨fun _ => ⟨rfl, rfl⟩, fun c hc => ?_, fun s hs => ?_⟩
      · have hc' : some env.nextId = some c := hc
        simp only [Option.some.injEq] at hc'
        show c < env.nextId + 2
        omega
      · have hs' : nm.sub = some s := hs
        rw [hsub] at hs'
        exact absurd hs' (by simp)

theorem managerInv_stop (nm : NostrManager) (env : Env) (h : ManagerInv nm env) :
    ManagerInv (nm.Stop env).1 (nm.Stop env).2.1 := by
  obtain ⟨h1, h2, h3⟩ := h
  unfold NostrManager.Stop
  by_cases hmu : nm.muLocked = true
  · rw [if_pos hmu]
    exact ⟨h1, h2, h3⟩
  · rw [if_neg hmu]
    by_cases hrun : (!nm.isRunning) = true
    · rw [if_pos hrun]
      exact ⟨h1, h2, h3⟩
    · rw [if_neg hrun]
      cases hs : nm.sub with
      | none =>
        refine ⟨fun hr => ?_, fun c hc => ?_, fun s hs' => ?_⟩
        · cases hcan : nm.cancel <;> simp [hcan] at hr
        · have hlt := h2 c (by cases hcan : nm.cancel <;> simpa [hcan] using hc)
          cases hcan : nm.cancel <;> simpa [hcan] using hlt
        · cases hcan : nm.cancel <;> simp [hcan, hs] at hs'
      | some s =>
        obtain ⟨_, _, hch, _, _⟩ := h3 s hs
        obtain ⟨channel, hch'⟩ := Option.isSome_iff_exists.1 hch
        simp only [NostrManager.cancelSubscription, hch']
        refine ⟨fun hr => ?_, fun c hc => ?_, fun s' hs' => ?_⟩
        · cases hcan : nm.cancel <;> simp [hcan] at hr
        · have hlt := h2 c (by cases hcan : nm.cancel <;> simpa [hcan] using hc)
          cases hcan : nm.cancel <;> simpa [hcan] using hlt
        · cases hcan : nm.cancel <;> simp [hcan] at hs'

theorem managerInv_resubscribe (getAppPubkeys getRelays : List String × Option Error)
    (nm : NostrManager) (env : Env) (h : ManagerInv nm env) :
    ManagerInv (nm.Resubscribe getAppPubkeys getRelays env).1
      (nm.Resubscribe getAppPubkeys getRelays env).2.1 := by
  have h0 := h
  obtain ⟨h1, h2, h3⟩ := h
  unfold NostrManager.Resubscribe
  by_cases hmu : nm.muLocked = true
  · rw [if_pos hmu]; exact h0
  rw [if_neg hmu]
  by_cases hnrun : (!nm.isRunning) = true
  · rw [if_pos hnrun]; exact h0
  rw [if_neg hnrun]
  have hrun : nm.isRunning = true := by simpa using hnrun
  cases herr : getAppPubkeys.2 with
  | some err => exact h0
  | none =>
    by_cases hlen : getAppPubkeys.1.length = 0
    · simp only [hlen, ↓reduceIte]; exact h0
    by_cases hg : (nm.lastAppPubkeys.isSome
        && slicesCompare (nm.lastAppPubkeys.getD []) getAppPubkeys.1 == 0) = true
    · simp only [hlen, hg, ↓reduceIte]; exact h0
    obtain ⟨hc, hp⟩ := h1 hrun
    obtain ⟨rootCtx, hc'⟩ := Option.isSome_iff_exists.1 hc
    obtain ⟨pool, hp'⟩ := Option.isSome_iff_exists.1 hp
    have hroot := h2 rootCtx hc'
    simp only [hlen, hg, ↓reduceIte, Bool.false_eq_true]
    rw [hc', hp']
    refine ⟨fun _ => ⟨by simp [hc'], by simp [hp']⟩, fun c hcc => ?_, fun s hs => ?_⟩
    · have hcc' : some rootCtx = some c := hcc
      simp only [Option.some.injEq] at hcc'
      subst hcc'
      cases nm.sub <;> simp <;> omega
    · have hs' : Subscription.mk env.nextId env.nextId (some (env.nextId + 1)) = s :=
        Option.some.inj hs
      subst hs'
      refine ⟨hrun, rfl, rfl, ?_, ?_⟩
      · cases nm.sub <;> simp
      · show some rootCtx ≠ some env.nextId
        simp only [ne_eq, Option.some.injEq]
        omega

theorem managerInv_run (ops : List ManagerOp) :
    ∀ (nm : NostrManager) (env : Env), ManagerInv nm env →
      ManagerInv (nm.run env ops).1 (nm.run env ops).2 := by
  induction ops with
  | nil => intro nm env h; exact h
  | cons op ops ih =>
    intro nm env h
    unfold NostrManager.run
    apply ih
    cases op with
    | start => exact managerInv_start nm env h
    | stop => exact managerInv_stop nm env h
    | resubscribe a b => exact managerInv_resubscribe a b nm env h

theorem resubscribe_cancels_previous (nm : NostrManager) (env : Env) (P : List String)
    (getRelays : List String × Option Error) (prev : Subscription)
    (hmu : nm.muLocked = false) (hrun : nm.isRunning = true)
    (hctx : nm.ctx.isSome = true) (hpool : nm.pool.isSome = true)
    (hP : P ≠ []) (hL : nm.lastAppPubkeys ≠ some P) (hsub : nm.sub = some prev) :
    (nm.Resubscribe (P, none) getRelays env).2.1.cancelled = prev.cancel :: env.cancelled := by
  obtain ⟨rootCtx, hctx'⟩ := Option.isSome_iff_exists.1 hctx
  obtain ⟨pool, hpool'⟩ := Option.isSome_iff_exists.1 hpool
  unfold NostrManager.Resubscribe
  have hlen : ¬ P.length = 0 := by
    intro h
    exact hP (List.length_eq_zero.1 h)
  have hg : ¬ ((nm.lastAppPubkeys.isSome && slicesCompare (nm.lastAppPubkeys.getD []) P == 0)
      = true) := fun h => hL ((gate_closed_iff _ _).1 h)
  simp only [hmu, hrun, Bool.false_eq_true, ↓reduceIte, Bool.not_true, hlen, hg, hctx', hpool',
    hsub]

theorem scope_forwardEvent (sub : Subscription) (ev : Event) (r : EventResponses) :
    (NostrManager.forwardEvent sub ev r).map Action.scope =
      List.replicate (NostrManager.forwardEvent sub ev r).length sub.ctx := by
  obtain ⟨⟨verdict, sigErr⟩, pTag, ⟨fwd, fwdErr⟩, ⟨hook, getErr⟩, http, markErr⟩ := r
  unfold NostrManager.forwardEvent
  cases sigErr <;> cases pTag <;> cases fwdErr <;> cases fwd <;> cases getErr <;> cases hook <;>
    cases hs : NostrManager.SendRequest http <;> simp [Action.scope, hs, List.replicate]

/-- C11 (amended). Delivery scope: in every manager state reached from
`NewNostrManager` by `Start`, `Stop` and `Resubscribe` calls that holds a subscription,
every call the forwarder of that subscription makes for an event it delivers (the POST
of `SendRequest` and the following `MarkEventForwarded`) is given the scope of the
subscription, which is not the root scope of the manager; and a `Resubscribe` that
replaces the subscription (mutex free, the store returning a non-empty list other than
the last applied one) cancels exactly that scope, the scope these deliveries run under. -/
theorem delivery_scope_is_subscription_scope (ops : List ManagerOp) (sub : Subscription)
    (ev : Event) (r : EventResponses) (P : List String)
    (getRelays : List String × Option Error)
    (hsub : (NewNostrManager.run Env.initial ops).1.sub = some sub)
    (hmu : (NewNostrManager.run Env.initial ops).1.muLocked = false)
    (hP : P ≠ [])
    (hL : (NewNostrManager.run Env.initial ops).1.lastAppPubkeys ≠ some P) :
    (NostrManager.forwardEvent sub ev r).map Action.scope =
        List.replicate (NostrManager.forwardEvent sub ev r).length sub.ctx ∧
      (NewNostrManager.run Env.initial ops).1.ctx ≠ some sub.ctx ∧
      ((NewNostrManager.run Env.initial ops).1.Resubscribe (P, none) getRelays
          (NewNostrManager.run Env.initial ops).2).2.1.cancelled =
        sub.ctx :: (NewNostrManager.run Env.initial ops).2.cancelled := by
  obtain ⟨h1, _, h3⟩ := managerInv_run ops NewNostrManager Env.initial managerInv_initial
  obtain ⟨hrun, hcancel, _, _, hne⟩ := h3 sub hsub
  obtain ⟨hctx, hpool⟩ := h1 hrun
  refine ⟨scope_forwardEvent sub ev r, hne, ?_⟩
  rw [resubscribe_cancels_previous _ _ P getRelays sub hmu hrun hctx hpool hP hL hsub, hcancel]

/-- Witness for C11 (amended): after `Start` and a first `Resubscribe` the manager holds
the subscription with scope 2 under the root scope 0; its forwarder posts and marks the
event `f00d` under scope 2, and the `Resubscribe` for the list `["a", "b"]` cancels
scope 2. -/
theorem delivery_scope_is_subscription_scope_witness :
    (NewNostrManager.run Env.initial
        [.start, .resubscribe (["a"], none) (["wss://r1"], none)]).1.sub
        = some { ctx := 2, cancel := 2, eventChannel := some 3 } ∧
      (NewNostrManager.run Env.initial
        [.start, .resubscribe (["a"], none) (["wss://r1"], none)]).1.muLocked = false ∧
      (NostrManager.forwardEvent { ctx := 2, cancel := 2, eventChannel := some 3 }
          { ID := "f00d", PubKey := "a", Tags := [["p", "02aa"]] }
          { checkSignature := (true, none), pTag := some ["p", "02aa"],
            isEventForwarded := (false, none),
            get := (some ⟨"02aa", "a", "https://push.example/hook", ["wss://r1"]⟩, none),
            http := .response 200, markEventForwarded := none }).map Action.scope
        = [2, 2] ∧
      (NewNostrManager.run Env.initial
        [.start, .resubscribe (["a"], none) (["wss://r1"], none)]).1.ctx ≠ some 2 ∧
      ((NewNostrManager.run Env.initial
          [.start, .resubscribe (["a"], none) (["wss://r1"], none)]).1.Resubscribe
        (["a", "b"], none) (["wss://r1"], none)
        (NewNostrManager.run Env.initial
          [.start, .resubscribe (["a"], none) (["wss://r1"], none)]).2).2.1.cancelled
        = 2 :: (NewNostrManager.run Env.initial
          [.start, .resubscribe (["a"], none) (["wss://r1"], none)]).2.cancelled := by
  have h := delivery_scope_is_subscription_scope
    [.start, .resubscribe (["a"], none) (["wss://r1"], none)]
    { ctx := 2, cancel := 2, eventChannel := some 3 }
    { ID := "f00d", PubKey := "a", Tags := [["p", "02aa"]] }
    { checkSignature := (true, none), pTag := some ["p", "02aa"],
      isEventForwarded := (false, none),
      get := (some ⟨"02aa", "a", "https://push.example/hook", ["wss://r1"]⟩, none),
      http := .response 200, markEventForwarded := none }
    ["a", "b"] (["wss://r1"], none) (by decide) (by decide) (by decide) (by decide)
  exact ⟨by decide, by decide, h.1, h.2.1, h.2.2⟩

/-- C11 as stated fails: after `Start` and a `Resubscribe` for which the store returned
`["a"]`, the root scope of the manager is 0 and the subscription has scope 2; for an
event it delivers, the forwarder of that subscription gives scope 2, not scope 0, to
the POST and to `MarkEventForwarded`; and the next `Resubscribe`, for which the store
returns `["a", "b"]`, cancels scope 2 and nothing else, hence the scope of that
delivery although the root scope is not cancelled. -/
theorem forwarder_delivers_under_subscription_scope :
    (NewNostrManager.run Env.initial
        [.start, .resubscribe (["a"], none) (["wss://r1"], none)]).1.ctx = some 0 ∧
      (NewNostrManager.run Env.initial
        [.start, .resubscribe (["a"], none) (["wss://r1"], none)]).1.sub
        = some { ctx := 2, cancel := 2, eventChannel := some 3 } ∧
      NostrManager.forwardEvent { ctx := 2, cancel := 2, eventChannel := some 3 }
          { ID := "f00d", PubKey := "a", Tags := [["p", "02aa"]] }
          { checkSignature := (true, none), pTag := some ["p", "02aa"],
            isEventForwarded := (false, none),
            get := (some ⟨"02aa", "a", "https://push.example/hook", ["wss://r1"]⟩, none),
            http := .response 200, markEventForwarded := none }
        = [Action.post 2 "https://push.example/hook" "f00d",
           Action.mark 2 "f00d" "02aa" "a" "https://push.example/hook"] ∧
      (NewNostrManager.run Env.initial
        [.start, .resubscribe (["a"], none) (["wss://r1"], none),
         .resubscribe (["a", "b"], none) (["wss://r1"], none)]).2.cancelled = [2] := by
  decide

end BreezLnurl
